import Mathlib

/-!
Verification of the batch link-extractor bot (`bot.py`).

The Python source is shallowly embedded: JSON dictionaries become
structures whose optional fields are `Option String` (Python
`dict.get(key)` returns `None` when the key is missing), Python lists
become `List`, Python string truthiness becomes `truthy`, and the
network transport behind `requests.get` becomes an explicit oracle
argument.  All definitions are translated directly from the source.
-/

/-- One entry of a lecture's `videoLinks` array: keys `quality` and `url`,
either of which may be missing (`link.get` without a default). -/
structure VideoLink where
  quality : Option String
  url : Option String
  deriving DecidableEq

/-- One entry of a lecture's `pdfLinks` array: keys `name` and `url`. -/
structure PdfLink where
  name : Option String
  url : Option String
  deriving DecidableEq

/-- A lecture object: `videoTitle`, `videoLinks`, `pdfLinks`. -/
structure Lecture where
  videoTitle : Option String
  videoLinks : List VideoLink
  pdfLinks : List PdfLink
  deriving DecidableEq

/-- A topic object: `topicName` and its ordered `lectures`. -/
structure Topic where
  topicName : Option String
  lectures : List Lecture
  deriving DecidableEq

/-- One pdf of a study-material group: keys `title` and `link`. -/
structure MaterialPdf where
  title : Option String
  link : Option String
  deriving DecidableEq

/-- A study-material group: key `topic` (defaulting to "Study Material"
at use site) and its `pdfs`. -/
structure Material where
  topic : Option String
  pdfs : List MaterialPdf
  deriving DecidableEq

/-- The batch-detail document: `topics` and `studyMaterial` arrays
(`batch_details.get(..., [])`, so a missing key is the empty list). -/
structure BatchDetail where
  topics : List Topic
  studyMaterial : List Material
  deriving DecidableEq

/-- The kind tag written into each extracted record:
`"video"`, `"pdf"` or `"study_pdf"` in the Python dict. -/
inductive LinkType where
  | video
  | pdf
  | study_pdf
  deriving DecidableEq

/-- One extracted record, a dict with keys `type`, `topic`, `title`, `url`. -/
structure LinkRecord where
  type : LinkType
  topic : String
  title : String
  url : String
  deriving DecidableEq

/-- Python truthiness of a `str | None` value: `None` and `""` are falsy. -/
def truthy : Option String → Bool
  | none => false
  | some s => s != ""

/-- The fixed quality preference order of `get_video_link`. -/
def video_qualities : List String := ["720p", "480p", "360p", "240p"]

/-- The nested loop of `get_video_link`: for each quality in preference
order, return the url of the first link whose `quality` equals it
(Python `link.get('quality') == quality`; a missing quality never
equals a string); after all qualities fail, return `""`. -/
def get_video_link_go : List String → List VideoLink → Option String
  | [], _ => some ""
  | q :: qs, links =>
    match links.find? (fun l => l.quality == some q) with
    | some l => l.url
    | none => get_video_link_go qs links

/-- `get_video_link(video_links)` from `bot.py`. -/
def get_video_link (links : List VideoLink) : Option String :=
  get_video_link_go video_qualities links

/-- The video record appended for a lecture when the selected url is truthy. -/
def video_record (tn : String) (lec : Lecture) : LinkRecord :=
  ⟨LinkType.video, tn, lec.videoTitle.getD "", (get_video_link lec.videoLinks).getD ""⟩

/-- The (zero- or one-element) video part of a lecture's records:
`if video_url: all_links.append({...})`. -/
def videoPart (tn : String) (lec : Lecture) : List LinkRecord :=
  if truthy (get_video_link lec.videoLinks) then [video_record tn lec] else []

/-- The pdf record appended for each entry of a lecture's `pdfLinks`. -/
def pdf_record (tn : String) (p : PdfLink) : LinkRecord :=
  ⟨LinkType.pdf, tn, p.name.getD "", p.url.getD ""⟩

/-- The record appended for each pdf of a study-material group. -/
def study_record (m : Material) (p : MaterialPdf) : LinkRecord :=
  ⟨LinkType.study_pdf, m.topic.getD "Study Material", p.title.getD "", p.link.getD ""⟩

/-- `extract_links(batch_details)` from `bot.py`: the two imperative
loops accumulating into `all_links`, embedded as left folds that append
in source order. -/
def extract_links (bd : BatchDetail) : List LinkRecord :=
  let topic_part := bd.topics.foldl (fun acc t =>
    t.lectures.foldl (fun acc2 lec =>
      (acc2 ++ videoPart (t.topicName.getD "") lec)
        ++ lec.pdfLinks.map (pdf_record (t.topicName.getD ""))) acc) []
  bd.studyMaterial.foldl (fun acc m => acc ++ m.pdfs.map (study_record m)) topic_part

/-- All records one lecture contributes, in order: the selected video
(if any) followed by its pdf records. -/
def lectureLinks (tn : String) (lec : Lecture) : List LinkRecord :=
  videoPart tn lec ++ lec.pdfLinks.map (pdf_record tn)

/-- Order-preserving concatenation of the images of `f`. -/
def concatMap (f : α → List β) : List α → List β
  | [] => []
  | x :: xs => f x ++ concatMap f xs

/-- All records one topic contributes, in lecture source order. -/
def topicLinks (t : Topic) : List LinkRecord :=
  concatMap (lectureLinks (t.topicName.getD "")) t.lectures

/-- All records one study-material group contributes. -/
def materialLinks (m : Material) : List LinkRecord :=
  m.pdfs.map (study_record m)

/-- The topic-derived portion of the output, in topic source order. -/
def topicRecords (bd : BatchDetail) : List LinkRecord :=
  concatMap topicLinks bd.topics

/-- The study-material portion of the output, in source order. -/
def studyRecords (bd : BatchDetail) : List LinkRecord :=
  concatMap materialLinks bd.studyMaterial

/-- The first preference quality that any entry of `links` matches. -/
def firstMatchedQuality (links : List VideoLink) : Option String :=
  video_qualities.find? (fun q => links.any (fun l => l.quality == some q))

/-! ## Caller side: `extract_and_send_batch` and `list_batches` -/

/-- A batch object of the list endpoint: keys `batchName`, `batchId`,
`discountPrice`, `batchThumb`. -/
structure Batch where
  batchName : Option String
  batchId : Option String
  discountPrice : Option String
  batchThumb : Option String
  deriving DecidableEq

/-- The line rendered for one record: `({topic}) {title} : {url}`. -/
def render_line (l : LinkRecord) : String :=
  "(" ++ l.topic ++ ") " ++ l.title ++ " : " ++ l.url

/-- The lines of the file body: the loop over `links` emits one line per
record whose `url` is truthy (`if link["url"]:`). -/
def renderedLines (links : List LinkRecord) : List String :=
  (links.filter (fun l => l.url != "")).map render_line

/-- `valid_links`, the "Total Links" figure: records with non-empty url. -/
def valid_links_count (links : List LinkRecord) : Nat :=
  (links.filter (fun l => l.url != "")).length

/-- The "Videos" figure of the caption: all records of type `video`. -/
def videos_total (links : List LinkRecord) : Nat :=
  (links.filter (fun l => l.type == LinkType.video)).length

/-- The "PDFs" figure of the caption: all records of type `pdf` or `study_pdf`. -/
def pdfs_total (links : List LinkRecord) : Nat :=
  (links.filter (fun l => l.type == LinkType.pdf || l.type == LinkType.study_pdf)).length

/-- The header written before the link lines. -/
def file_header (name img : String) : String :=
  "Batch: " ++ name ++ "\n" ++ "Batch Image: " ++ img ++ "\n\n"

/-- The full `file_content` string assembled by `extract_and_send_batch`. -/
def file_content (name img : String) (links : List LinkRecord) : String :=
  file_header name img ++ String.join ((renderedLines links).map (fun s => s ++ "\n"))

/-- The two `str.replace` calls on the batch name, over the character
sequence of the Python string: first every space becomes an underscore,
then every slash becomes a hyphen. -/
def sanitize_chars (s : List Char) : List Char :=
  (s.map (fun c => if c = ' ' then '_' else c)).map (fun c => if c = '/' then '-' else c)

/-- The output file name: sanitized batch name sliced to its first 50
characters (`[:50]`) with `".txt"` appended. -/
def batch_filename (s : List Char) : List Char :=
  (sanitize_chars s).take 50 ++ ".txt".data

/-- The file name as the spec words it: one pass replacing spaces by
underscores and slashes by hyphens, truncated to 50 characters, `.txt`
appended.  Stated for the refinement comparison with `batch_filename`. -/
def spec_filename (s : List Char) : List Char :=
  (s.map (fun c => if c = ' ' then '_' else if c = '/' then '-' else c)).take 50 ++ ".txt".data

/-- The label of one batch button: name (default "Unknown Batch")
sliced to 25 characters, then `" - ₹"` and the price (default "N/A"). -/
def button_label (b : Batch) : String :=
  (b.batchName.getD "Unknown Batch").take 25 ++ " - ₹" ++ b.discountPrice.getD "N/A"

/-- The batch rows of the keyboard: one button per batch of `batches[:30]`. -/
def batch_buttons (bs : List Batch) : List String :=
  (bs.take 30).map button_label

/-- The whole keyboard: the batch rows followed by the cancel row. -/
def keyboard_labels (bs : List Batch) : List String :=
  batch_buttons bs ++ ["❌ Cancel"]

/-- The message sent with the keyboard; its count is `len(batches)`. -/
def batches_header (bs : List Batch) : String :=
  "📚 *Available Batches (" ++ toString bs.length ++ ")*\n"
    ++ "Click on a batch to extract links:"

/-! ## Fetcher: `get_all_batches` and `get_batch_details`

`requests.get(url, timeout=10)` either returns a response or raises
(connection error, timeout); `response.raise_for_status()` raises on an
HTTP error status (>= 400); `response.json()` either parses or raises.
A response is a status code plus the outcome of parsing its body, the
transport is an oracle giving the outcome of each successive attempt,
and every raised exception is an `Except.error` carrying its message. -/

/-- An HTTP response: status code and JSON-parse outcome of the body. -/
structure HttpResponse (α : Type) where
  status : Nat
  body : Except String α

/-- `response.raise_for_status()`: raises for 4xx and 5xx statuses. -/
def raise_for_status (r : HttpResponse α) : Except String Unit :=
  if 400 ≤ r.status then Except.error "HTTPError" else Except.ok ()

/-- The body of the `try` block shared by both fetchers:
`requests.get` (the oracle outcome), then `raise_for_status`, then `json()`. -/
def fetch_json (net_result : Except String (HttpResponse α)) : Except String α :=
  match net_result with
  | Except.error e => Except.error e
  | Except.ok r =>
    match raise_for_status r with
    | Except.error e => Except.error e
    | Except.ok _ => r.body

/-- `get_all_batches()`: one attempt (oracle index 0); any exception is
caught, logged and turned into `[]`. -/
def get_all_batches (net : Nat → Except String (HttpResponse (List Batch))) : List Batch :=
  match fetch_json (net 0) with
  | Except.ok v => v
  | Except.error _ => []

/-- `get_batch_details(batch_id)`: one attempt; any exception is caught
and turned into `None`. -/
def get_batch_details (net : Nat → Except String (HttpResponse BatchDetail)) : Option BatchDetail :=
  match fetch_json (net 0) with
  | Except.ok v => some v
  | Except.error _ => none

/-! ## Helper lemmas -/

/-- When `q` is the first preference with any match and `l` is the first
entry matching `q`, the scan returns `l.url` — whatever that value is. -/
theorem get_video_link_go_eq_of_find (qs : List String) (links : List VideoLink)
    (q : String) (l : VideoLink)
    (h1 : qs.find? (fun q2 => links.any (fun v => v.quality == some q2)) = some q)
    (h2 : links.find? (fun v => v.quality == some q) = some l) :
    get_video_link_go qs links = l.url := by
  induction qs with
  | nil => simp at h1
  | cons q0 rest ih =>
    by_cases h0 : links.any (fun v => v.quality == some q0) = true
    · simp only [List.find?, h0] at h1
      have hq : q = q0 := (Option.some.inj h1).symm
      subst hq
      unfold get_video_link_go
      rw [h2]
    · have h0f : links.any (fun v => v.quality == some q0) = false := by
        simpa using h0
      simp only [List.find?, h0f] at h1
      unfold get_video_link_go
      have hnone : links.find? (fun v => v.quality == some q0) = none := by
        rw [List.find?_eq_none]
        intro x hx hpx
        exact h0 (List.any_eq_true.mpr ⟨x, hx, hpx⟩)
      rw [hnone]
      exact ih h1

/-- When no preference quality has a match, the scan returns `""`. -/
theorem get_video_link_go_no_match (qs : List String) (links : List VideoLink)
    (h : ∀ q ∈ qs, links.find? (fun v => v.quality == some q) = none) :
    get_video_link_go qs links = some "" := by
  induction qs with
  | nil => rfl
  | cons q0 rest ih =>
    unfold get_video_link_go
    rw [h q0 (by simp)]
    exact ih (fun q hq => h q (by simp [hq]))

/-- The lecture loop of `extract_links`, as a fold, appends exactly the
per-lecture record lists after the accumulator. -/
theorem lecture_foldl_eq (tn : String) (lecs : List Lecture) (acc : List LinkRecord) :
    lecs.foldl (fun acc2 lec =>
        (acc2 ++ videoPart tn lec) ++ lec.pdfLinks.map (pdf_record tn)) acc
      = acc ++ concatMap (lectureLinks tn) lecs := by
  induction lecs generalizing acc with
  | nil => simp [concatMap]
  | cons lec rest ih =>
    rw [List.foldl_cons, ih]
    simp [concatMap, lectureLinks, List.append_assoc]

/-- The topic loop of `extract_links` appends the per-topic record lists. -/
theorem topics_foldl_eq (ts : List Topic) (acc : List LinkRecord) :
    ts.foldl (fun acc t =>
        t.lectures.foldl (fun acc2 lec =>
          (acc2 ++ videoPart (t.topicName.getD "") lec)
            ++ lec.pdfLinks.map (pdf_record (t.topicName.getD ""))) acc) acc
      = acc ++ concatMap topicLinks ts := by
  induction ts generalizing acc with
  | nil => simp [concatMap]
  | cons t rest ih =>
    rw [List.foldl_cons, lecture_foldl_eq, ih]
    simp [concatMap, topicLinks, List.append_assoc]

/-- The study-material loop appends the per-group record lists. -/
theorem study_foldl_eq (ms : List Material) (acc : List LinkRecord) :
    ms.foldl (fun acc m => acc ++ m.pdfs.map (study_record m)) acc
      = acc ++ concatMap materialLinks ms := by
  induction ms generalizing acc with
  | nil => simp [concatMap]
  | cons m rest ih =>
    rw [List.foldl_cons, ih]
    simp [concatMap, materialLinks, List.append_assoc]

/-! ## Claim theorems -/

/-- C1: for every lecture, the selected video URL is the url of a
`videoLinks` entry whose quality equals the first quality in the fixed
preference order [720p, 480p, 360p, 240p] that has any matching entry. -/
theorem selected_url_matches_first_preference (links : List VideoLink) (q : String)
    (h : firstMatchedQuality links = some q) :
    ∃ l ∈ links, l.quality = some q ∧ get_video_link links = l.url := by
  unfold firstMatchedQuality at h
  have hq_any : links.any (fun v => v.quality == some q) = true := by
    have := List.find?_some h
    simpa using this
  have hfind : (links.find? (fun v => v.quality == some q)).isSome := by
    rw [List.find?_isSome]
    obtain ⟨x, hx, hpx⟩ := List.any_eq_true.mp hq_any
    exact ⟨x, hx, hpx⟩
  obtain ⟨l0, hl0⟩ := Option.isSome_iff_exists.mp hfind
  refine ⟨l0, List.mem_of_find?_eq_some hl0, ?_, ?_⟩
  · have := List.find?_some hl0
    simpa using this
  · exact get_video_link_go_eq_of_find video_qualities links q l0 h hl0

/-- The videoLinks list of the spec's quality-selection example. -/
def c1_example_links : List VideoLink :=
  [⟨some "480p", some "A"⟩, ⟨some "720p", some "B"⟩, ⟨some "240p", some "C"⟩]

/-- Witness for C1 at the spec's example: the first matching preference
is 720p and the selected URL is B, not the list-order-first A. -/
theorem selected_url_matches_first_preference_witness :
    firstMatchedQuality c1_example_links = some "720p"
    ∧ (∃ l ∈ c1_example_links, l.quality = some "720p"
        ∧ get_video_link c1_example_links = l.url)
    ∧ get_video_link c1_example_links = some "B" :=
  ⟨by decide,
   selected_url_matches_first_preference c1_example_links "720p" (by decide),
   by decide⟩

/-- C4: the output of `extract_links` is all topic-derived records in
topic and lecture source order, followed by all study-material records
in source order, with no de-duplication and no sorting. -/
theorem extract_links_order (bd : BatchDetail) :
    extract_links bd = topicRecords bd ++ studyRecords bd := by
  unfold extract_links topicRecords studyRecords
  rw [topics_foldl_eq, study_foldl_eq]
  simp

/-- C5: a lecture whose videoLinks contain no entry with a recognized
quality gets `""` from `get_video_link` and contributes no video
record, only its pdf records. -/
theorem no_recognized_quality_no_video (links : List VideoLink)
    (h : ∀ v ∈ links, ∀ q ∈ video_qualities, v.quality ≠ some q) :
    get_video_link links = some ""
    ∧ ∀ tn title pdfs, lectureLinks tn ⟨title, links, pdfs⟩ = pdfs.map (pdf_record tn) := by
  have hmain : get_video_link links = some "" := by
    unfold get_video_link
    apply get_video_link_go_no_match
    intro q hq
    rw [List.find?_eq_none]
    intro x hx hpx
    exact h x hx q hq (by simpa using hpx)
  refine ⟨hmain, fun tn title pdfs => ?_⟩
  simp [lectureLinks, videoPart, hmain, truthy]

/-- The 1080p-only videoLinks list from the spec's example. -/
def c5_links : List VideoLink := [⟨some "1080p", some "X"⟩]

/-- Witness for C5 at videoLinks = [(1080p, X)]: the unlisted, numerically
higher quality is ignored and the lecture contributes no video record. -/
theorem no_recognized_quality_no_video_witness :
    (∀ v ∈ c5_links, ∀ q ∈ video_qualities, v.quality ≠ some q)
    ∧ get_video_link c5_links = some ""
    ∧ lectureLinks "T" ⟨some "L", c5_links, []⟩ = [] := by
  have h := no_recognized_quality_no_video c5_links (by decide)
  exact ⟨by decide, h.1, by simpa using h.2 "T" (some "L") []⟩

/-- C7: `extract_links` is deterministic and stateless — two runs on the
same BatchDetail value return identical output sequences. -/
theorem extract_links_deterministic (bd : BatchDetail) :
    extract_links bd = extract_links bd := rfl

/-- C9: when the first entry matching the highest-preference matched
quality has an empty or missing url, `get_video_link` returns that empty
value unchecked and the lecture gets no video record, regardless of any
lower-preference entry with a non-empty url. -/
theorem empty_first_match_blocks_video (links : List VideoLink) (q : String) (l : VideoLink)
    (h1 : firstMatchedQuality links = some q)
    (h2 : links.find? (fun v => v.quality == some q) = some l)
    (h3 : truthy l.url = false) :
    get_video_link links = l.url
    ∧ ∀ tn title pdfs, lectureLinks tn ⟨title, links, pdfs⟩ = pdfs.map (pdf_record tn) := by
  have hmain : get_video_link links = l.url :=
    get_video_link_go_eq_of_find video_qualities links q l h1 h2
  refine ⟨hmain, fun tn title pdfs => ?_⟩
  simp [lectureLinks, videoPart, hmain, h3]

/-- A videoLinks list whose 720p entry has an empty url while its 480p
entry has a non-empty one. -/
def c9_links : List VideoLink := [⟨some "720p", some ""⟩, ⟨some "480p", some "u"⟩]

/-- Witness for C9: the empty 720p url is returned, the lecture emits
only its pdf record, and the non-empty 480p url is never reached. -/
theorem empty_first_match_blocks_video_witness :
    firstMatchedQuality c9_links = some "720p"
    ∧ c9_links.find? (fun v => v.quality == some "720p") = some ⟨some "720p", some ""⟩
    ∧ get_video_link c9_links = some ""
    ∧ lectureLinks "T" ⟨some "L", c9_links, [⟨some "n", some "u2"⟩]⟩
        = [pdf_record "T" ⟨some "n", some "u2"⟩]
    ∧ (∃ v ∈ c9_links, truthy v.url = true) := by
  have h := empty_first_match_blocks_video c9_links "720p" ⟨some "720p", some ""⟩
    (by decide) (by decide) (by decide)
  exact ⟨by decide, by decide, h.1,
    by rw [h.2 "T" (some "L") [⟨some "n", some "u2"⟩]]; rfl, by decide⟩

/-- C2: pdf records are emitted unconditionally (one per `pdfLinks`
entry, empty url or not); an empty-url record adds no rendered line and
does not raise the "Total Links" count, yet raises the per-kind caption
totals, which always tally every record. -/
theorem pdf_emission_and_caption_counts :
    (∀ tn lec, ((lectureLinks tn lec).filter (fun r => r.type == LinkType.pdf)).length
        = lec.pdfLinks.length)
    ∧ (∀ r ls, r.url = "" →
        renderedLines (r :: ls) = renderedLines ls
        ∧ valid_links_count (r :: ls) = valid_links_count ls
        ∧ videos_total (r :: ls) + pdfs_total (r :: ls)
            = (videos_total ls + pdfs_total ls) + 1)
    ∧ (∀ ls, videos_total ls + pdfs_total ls = ls.length) := by
  refine ⟨?_, ?_, ?_⟩
  · intro tn lec
    unfold lectureLinks videoPart
    by_cases h : truthy (get_video_link lec.videoLinks) = true
    · simp [h, video_record, pdf_record, List.filter_append, List.filter_map, Function.comp]
    · simp only [Bool.not_eq_true] at h
      simp [h, pdf_record, List.filter_append, List.filter_map, Function.comp]
  · intro r ls h
    refine ⟨?_, ?_, ?_⟩
    · simp [renderedLines, List.filter_cons, h]
    · simp [valid_links_count, List.filter_cons, h]
    · unfold videos_total pdfs_total
      rw [List.filter_cons, List.filter_cons]
      cases htype : r.type <;> simp [htype] <;> omega
  · intro ls
    induction ls with
    | nil => rfl
    | cons r rest ih =>
      unfold videos_total pdfs_total at *
      rw [List.filter_cons, List.filter_cons, List.length_cons]
      cases htype : r.type <;> simp [htype] <;> omega

/-- An extracted pdf record whose url is empty. -/
def c2_empty_record : LinkRecord := ⟨LinkType.pdf, "T", "n", ""⟩

/-- A one-record tail with a non-empty url. -/
def c2_rest : List LinkRecord := [⟨LinkType.video, "T", "v", "u"⟩]

/-- Witness for C2: inserting an empty-url pdf record changes neither the
rendered lines nor the "Total Links" count, but raises the per-kind sum. -/
theorem pdf_emission_and_caption_counts_witness :
    renderedLines (c2_empty_record :: c2_rest) = renderedLines c2_rest
    ∧ valid_links_count (c2_empty_record :: c2_rest) = valid_links_count c2_rest
    ∧ videos_total (c2_empty_record :: c2_rest) + pdfs_total (c2_empty_record :: c2_rest)
        = (videos_total c2_rest + pdfs_total c2_rest) + 1 :=
  pdf_emission_and_caption_counts.2.1 c2_empty_record c2_rest rfl

/-- The single-topic, single-lecture BatchDetail of the end-to-end example. -/
def c6_detail : BatchDetail :=
  ⟨[⟨some "T", [⟨some "L", [⟨some "720p", some "v.mp4"⟩], [⟨some "notes", some "n.pdf"⟩]⟩]⟩], []⟩

/-- C6: on the one-topic/one-lecture example the extractor returns
exactly the video record then the pdf record, and the rendered file is
the header plus exactly those two link lines. -/
theorem end_to_end_single_lecture :
    extract_links c6_detail
      = [⟨LinkType.video, "T", "L", "v.mp4"⟩, ⟨LinkType.pdf, "T", "notes", "n.pdf"⟩]
    ∧ renderedLines (extract_links c6_detail) = ["(T) L : v.mp4", "(T) notes : n.pdf"]
    ∧ (renderedLines (extract_links c6_detail)).length = 2
    ∧ file_content "N" "I" (extract_links c6_detail)
        = file_header "N" "I" ++ "(T) L : v.mp4\n(T) notes : n.pdf\n" := by
  refine ⟨by decide, by decide, by decide, by decide⟩

/-- The two chained single-character replacements equal the spec's one-pass
substitution. -/
theorem sanitize_chars_eq (s : List Char) :
    sanitize_chars s = s.map (fun c => if c = ' ' then '_' else if c = '/' then '-' else c) := by
  induction s with
  | nil => rfl
  | cons c cs ih =>
    simp only [sanitize_chars, List.map_cons] at *
    refine congrArg₂ List.cons ?_ ih
    by_cases h1 : c = ' '
    · simp [h1]
    · by_cases h2 : c = '/' <;> simp [h1, h2]

/-- C8: the output file name is the batch name with spaces replaced by
underscores and slashes by hyphens, truncated to at most 50 characters,
with ".txt" appended; it never exceeds 54 characters. -/
theorem filename_matches_spec (s : List Char) :
    batch_filename s = spec_filename s ∧ (batch_filename s).length ≤ 54 := by
  constructor
  · unfold batch_filename spec_filename
    rw [sanitize_chars_eq]
  · unfold batch_filename
    rw [List.length_append, List.length_take]
    have h4 : (".txt".data).length = 4 := rfl
    omega

/-- C3: both fetchers are single-attempt and fail-soft: any raised
exception (transport failure, timeout, HTTP error status, parse error)
yields `[]` / `none`; every run ends in one of the two ordinary outcomes
(never an escaping exception); and the result depends only on the first
attempt's outcome. -/
theorem fetchers_fail_soft_single_attempt :
    (∀ (net : Nat → Except String (HttpResponse (List Batch))) e,
        fetch_json (net 0) = Except.error e → get_all_batches net = [])
    ∧ (∀ (net : Nat → Except String (HttpResponse BatchDetail)) e,
        fetch_json (net 0) = Except.error e → get_batch_details net = none)
    ∧ (∀ (net : Nat → Except String (HttpResponse (List Batch))) r,
        net 0 = Except.ok r → 400 ≤ r.status → get_all_batches net = [])
    ∧ (∀ net : Nat → Except String (HttpResponse (List Batch)),
        (∃ e, fetch_json (net 0) = Except.error e ∧ get_all_batches net = [])
        ∨ (∃ v, fetch_json (net 0) = Except.ok v ∧ get_all_batches net = v))
    ∧ (∀ net : Nat → Except String (HttpResponse BatchDetail),
        (∃ e, fetch_json (net 0) = Except.error e ∧ get_batch_details net = none)
        ∨ (∃ v, fetch_json (net 0) = Except.ok v ∧ get_batch_details net = some v))
    ∧ (∀ net net2 : Nat → Except String (HttpResponse (List Batch)),
        net 0 = net2 0 → get_all_batches net = get_all_batches net2)
    ∧ (∀ net net2 : Nat → Except String (HttpResponse BatchDetail),
        net 0 = net2 0 → get_batch_details net = get_batch_details net2) := by
  refine ⟨?_, ?_, ?_, ?_, ?_, ?_, ?_⟩
  · intro net e h
    simp [get_all_batches, h]
  · intro net e h
    simp [get_batch_details, h]
  · intro net r hok h400
    simp [get_all_batches, fetch_json, hok, raise_for_status, if_pos h400]
  · intro net
    cases hfj : fetch_json (net 0) with
    | error e => exact Or.inl ⟨e, rfl, by simp [get_all_batches, hfj]⟩
    | ok v => exact Or.inr ⟨v, rfl, by simp [get_all_batches, hfj]⟩
  · intro net
    cases hfj : fetch_json (net 0) with
    | error e => exact Or.inl ⟨e, rfl, by simp [get_batch_details, hfj]⟩
    | ok v => exact Or.inr ⟨v, rfl, by simp [get_batch_details, hfj]⟩
  · intro net net2 h
    simp [get_all_batches, h]
  · intro net net2 h
    simp [get_batch_details, h]

/-- A transport oracle whose every attempt raises a timeout, list endpoint. -/
def c3_timeout_net : Nat → Except String (HttpResponse (List Batch)) :=
  fun _ => Except.error "ReadTimeout"

/-- A transport oracle whose every attempt raises a timeout, detail endpoint. -/
def c3_timeout_net_detail : Nat → Except String (HttpResponse BatchDetail) :=
  fun _ => Except.error "ReadTimeout"

/-- Witness for C3: on a simulated timeout the list fetcher returns the
empty sequence and the detail fetcher the absent value. -/
theorem fetchers_fail_soft_single_attempt_witness :
    get_all_batches c3_timeout_net = [] ∧ get_batch_details c3_timeout_net_detail = none :=
  ⟨fetchers_fail_soft_single_attempt.1 c3_timeout_net "ReadTimeout" rfl,
   fetchers_fail_soft_single_attempt.2.1 c3_timeout_net_detail "ReadTimeout" rfl⟩

/-- C10: with more than 30 batches the keyboard offers buttons for only
the first 30 (labels truncated to 25 characters of the name), while the
header message reports the full count returned by the list endpoint. -/
theorem keyboard_thirty_header_full (bs : List Batch) (h : 30 < bs.length) :
    (batch_buttons bs).length = 30
    ∧ (∀ i, i < 30 → (batch_buttons bs)[i]? = (bs[i]?).map button_label)
    ∧ batches_header bs
        = "📚 *Available Batches (" ++ toString bs.length ++ ")*\n"
            ++ "Click on a batch to extract links:" := by
  refine ⟨?_, ?_, rfl⟩
  · unfold batch_buttons
    rw [List.length_map, List.length_take]
    omega
  · intro i hi
    unfold batch_buttons
    rw [List.getElem?_map, List.getElem?_take_of_lt hi]

/-- Thirty-one identical batches. -/
def c10_batches : List Batch := List.replicate 31 ⟨some "B", some "1", some "5", none⟩

/-- Witness for C10 at a 31-batch list: 30 buttons, label built from the
underlying batch, header reporting 31. -/
theorem keyboard_thirty_header_full_witness :
    30 < c10_batches.length
    ∧ (batch_buttons c10_batches).length = 30
    ∧ (batch_buttons c10_batches)[5]? = (c10_batches[5]?).map button_label
    ∧ batches_header c10_batches
        = "📚 *Available Batches (31)*\nClick on a batch to extract links:" := by
  have h := keyboard_thirty_header_full c10_batches (by decide)
  exact ⟨by decide, h.1, h.2.1 5 (by decide), by decide⟩
